import Mathlib

/-!
Verification of the Rust code generator `t_rs_generator.cc`.

The definitions below are a shallow embedding of the generator:
generator-side decision procedures (constant shape, Default derivation,
name mangling, dispatch-arm order, zero-field-union rejection) are
translated directly from the C++ source, and the behaviour of the code
the generator emits (union read, result-struct `ok_or`, enum i32
conversions, read-slot initialization) is modelled as executable
functions parameterized by the IDL entity the generator was run on,
following the emitted code templates line by line.
-/

namespace RsGen

/-- Thrift base types, from `t_base_type::t_base` as handled by the
generator.  `tString true` is the `binary` flavour of `TYPE_STRING`. -/
inductive TBase where
  | tVoid
  | tString (binary : Bool)
  | tBool
  | tUuid
  | tI8
  | tI16
  | tI32
  | tI64
  | tDouble
deriving DecidableEq, Repr

/-- The IDL type algebra the generator dispatches on (`t_type`).
Enum/struct/exception references carry the referenced name; typedefs
carry their symbolic name, the forward flag and the aliased type. -/
inductive TType where
  | base (b : TBase)
  | tEnum (name : String)
  | tStruct (name : String)
  | tXception (name : String)
  | tList (elem : TType)
  | tSet (elem : TType)
  | tMap (key : TType) (val : TType)
  | tTypedef (symbolic : String) (forward : Bool) (inner : TType)
deriving DecidableEq, Repr

/-- `get_true_type`: resolve through as many typedef layers as necessary. -/
def get_true_type : TType → TType
  | .tTypedef _ _ inner => get_true_type inner
  | t => t

/-- Field requiredness, `t_field::e_req`. -/
inductive Req where
  | required
  | optional
  | optInReqOut
deriving DecidableEq, Repr

/-- `t_rs_generator::e_struct_type`: the flavour a struct is emitted as. -/
inductive StructType where
  | tRegular
  | tArgs
  | tResult
  | tException
deriving DecidableEq, Repr

/-- A struct field (`t_field`): wire id (an `int32`, may be zero or
negative), original IDL name, type and declared requiredness. -/
structure Field where
  id : Int
  name : String
  ty : TType
  req : Req
deriving DecidableEq, Repr

/-- `t_rs_generator::is_optional` (t_rs_generator.cc:3047). -/
def is_optional (req : Req) : Bool :=
  req == Req.optional || req == Req.optInReqOut

/-- `t_rs_generator::actual_field_req` (t_rs_generator.cc:3051): the
effective requiredness used for emission — `T_ARGS` forces required,
every other flavour keeps the declared requiredness. -/
def actual_field_req (f : Field) (structType : StructType) : Req :=
  if structType == StructType.tArgs then Req.required else f.req

/-! ### Name mangling -/

/-- `RUST_RESERVED_WORDS` (t_rs_generator.cc:36). -/
def RUST_RESERVED_WORDS : List String :=
  ["abstract", "alignof", "as", "become", "box", "break", "const", "continue", "crate",
   "do", "else", "enum", "extern", "false", "final", "fn", "for", "if",
   "impl", "in", "let", "loop", "macro", "match", "mod", "move", "mut",
   "offsetof", "override", "priv", "proc", "pub", "pure", "ref", "return", "Self",
   "self", "sizeof", "static", "struct", "super", "trait", "true", "type", "typeof",
   "unsafe", "unsized", "use", "virtual", "where", "while", "yield"]

/-- `t_rs_generator::is_reserved` (t_rs_generator.cc:3102). -/
def is_reserved (name : String) : Bool :=
  RUST_RESERVED_WORDS.contains name

/-- `t_rs_generator::rust_safe_name` (t_rs_generator.cc:3121): append a
trailing underscore iff the name is a Rust reserved word. -/
def rust_safe_name (name : String) : String :=
  if is_reserved name then name ++ "_" else name

/-- Modelled from the spec: tail step of the base compiler helper
`underscore` (the helper lives outside the sources under review) —
insert an underscore before each capital and lowercase it. -/
def underscoreTail : List Char → List Char
  | [] => []
  | c :: cs =>
      if c.isUpper then '_' :: c.toLower :: underscoreTail cs
      else c :: underscoreTail cs

/-- Modelled from the spec: the base compiler helper `underscore` —
lowercase the leading character, then insert an underscore before each
later capital, lowercasing it. -/
def underscoreChars : List Char → List Char
  | [] => []
  | c :: cs => c.toLower :: underscoreTail cs

/-- Modelled from the spec: the base compiler helper `decapitalize` —
lowercase the first character. -/
def decapitalizeChars : List Char → List Char
  | [] => []
  | c :: cs => c.toLower :: cs

/-- Modelled from the spec: the base compiler helper `capitalize` —
uppercase the first character. -/
def capitalizeChars : List Char → List Char
  | [] => []
  | c :: cs => c.toUpper :: cs

/-- Modelled from the spec: worker of the base compiler helper
`camelcase` — drop underscores, capitalizing the character that follows
a dropped underscore (the flag records a just-seen underscore). -/
def camelcaseAux : Bool → List Char → List Char
  | _, [] => []
  | sawUnderscore, c :: cs =>
      if c == '_' then camelcaseAux true cs
      else (if sawUnderscore then c.toUpper else c) :: camelcaseAux false cs

/-- Modelled from the spec: the base compiler helper `camelcase`. -/
def camelcaseChars (s : List Char) : List Char :=
  camelcaseAux false s

/-- `t_rs_generator::string_replace` (t_rs_generator.cc:3231), on
character lists: repeatedly find the first occurrence of `search` and
splice in `repl`, resuming the scan right after the spliced-in
replacement (`search_idx = match_idx + replace_len`), so the
replacement text itself is never rescanned.  The C++ original returns
an empty target unchanged; the (never exercised, divergent in C++)
empty-search case is treated as the identity here. -/
def string_replace_chars (search repl : List Char) : List Char → List Char
  | [] => []
  | c :: cs =>
      if h : search ≠ [] ∧ search.isPrefixOf (c :: cs) then
        repl ++ string_replace_chars search repl ((c :: cs).drop search.length)
      else
        c :: string_replace_chars search repl cs
termination_by l => l.length
decreasing_by
  · have hlen : 0 < search.length := List.length_pos.mpr h.1
    simp only [List.length_drop, List.length_cons]
    omega
  · simp only [List.length_cons]
    omega

/-- `t_rs_generator::rust_snake_case` (t_rs_generator.cc:3208):
`decapitalize(underscore(name))`, then one `string_replace` pass
turning `__` into `_`. -/
def rust_snake_case (name : String) : String :=
  String.mk (string_replace_chars ['_', '_'] ['_']
    (decapitalizeChars (underscoreChars name.data)))

/-- `t_rs_generator::rust_camel_case` (t_rs_generator.cc:3214):
`capitalize(camelcase(name))`, then every `_` removed. -/
def rust_camel_case (name : String) : String :=
  String.mk (string_replace_chars ['_'] []
    (capitalizeChars (camelcaseChars name.data)))

/-- `t_rs_generator::rust_union_field_name` (t_rs_generator.cc:3116):
camel case followed by reserved-word suffixing. -/
def rust_union_field_name (name : String) : String :=
  rust_safe_name (rust_camel_case name)

/-! ### Field-id mangling (`rust_safe_field_id`) -/

/-- Value of a decimal digit character (inverse of `Nat.digitChar` on
digits; used only in proofs). -/
def digitVal (c : Char) : Nat :=
  c.toNat - 48

/-- Little-endian decimal digits of `n`; the first argument is fuel
(any bound of at least `n` works) making the recursion structural. -/
def decDigitsAux : Nat → Nat → List Char
  | 0, _ => []
  | _ + 1, 0 => []
  | fuel + 1, n + 1 => Nat.digitChar ((n + 1) % 10) :: decDigitsAux fuel ((n + 1) / 10)

/-- Decimal rendering of a natural number, most significant digit
first; models the digits `std::to_string` produces. -/
def decRepr (n : Nat) : String :=
  if n = 0 then String.mk ['0'] else String.mk (decDigitsAux n n).reverse

/-- Decimal decoding, most significant digit first — a left inverse of
`decRepr`, used in the injectivity proofs. -/
def decodeDigits (l : List Char) : Nat :=
  l.foldl (fun acc c => acc * 10 + digitVal c) 0

/-- `std::to_string` on a (mathematical) int: a minus sign followed by
the decimal digits of the absolute value. -/
def cpp_to_string (i : Int) : String :=
  if i < 0 then "-" ++ decRepr i.natAbs else decRepr i.natAbs

/-- The smallest `int32`. -/
def INT32_MIN : Int := -(2 ^ 31)

/-- C `abs` on `int32` operands: the absolute value, except that
`abs(INT32_MIN)` overflows (undefined behaviour in C++); on the
two's-complement targets the compiler runs on it yields `INT32_MIN`
back, which is what this model returns there. -/
def i32_abs (i : Int) : Int :=
  if i = INT32_MIN then INT32_MIN else (i.natAbs : Int)

/-- `t_rs_generator::rust_safe_field_id` (t_rs_generator.cc:3220):
`std::to_string(abs(id))`, prefixed with `neg` for negative ids. -/
def rust_safe_field_id (id : Int) : String :=
  let idStr := cpp_to_string (i32_abs id)
  if 0 ≤ id then idStr else "neg" ++ idStr

/-- A string is a valid identifier tail when every character may occur
in the continuation of a Rust identifier (letter, digit or underscore). -/
def valid_ident_tail (s : String) : Bool :=
  s.data.all (fun c => c.isAlpha || c.isDigit || c == '_')

/-- The family of names exercising the underscore-collapsing pass of
`rust_snake_case`: a run of `n` underscores between two lowercase
letters. -/
def underscore_run (n : Nat) : String :=
  String.mk ('a' :: (List.replicate n '_' ++ ['b']))

/-- Whether a character list contains two consecutive underscores. -/
def has_double_underscore : List Char → Bool
  | '_' :: '_' :: _ => true
  | _ :: rest => has_double_underscore rest
  | [] => false

/-! ### Type mapping -/

/-- `t_rs_generator::to_rust_type` (t_rs_generator.cc:2877).  Names of
referenced enums/structs are camel-cased; forward typedefs are wrapped
in `Box<..>`.  Cross-program namespace prefixes (`rust_namespace`) are
elided: the claims under verification all live inside one program, so
`rust_namespace` returns the empty string on every input involved. -/
def to_rust_type : TType → String
  | .base .tVoid => "()"
  | .base (.tString true) => "Vec<u8>"
  | .base (.tString false) => "String"
  | .base .tUuid => "uuid::Uuid"
  | .base .tBool => "bool"
  | .base .tI8 => "i8"
  | .base .tI16 => "i16"
  | .base .tI32 => "i32"
  | .base .tI64 => "i64"
  | .base .tDouble => "OrderedFloat<f64>"
  | .tTypedef symbolic forward _ =>
      if forward then "Box<" ++ symbolic ++ ">" else symbolic
  | .tEnum name => rust_camel_case name
  | .tStruct name => rust_camel_case name
  | .tXception name => rust_camel_case name
  | .tMap key val => "BTreeMap<" ++ to_rust_type key ++ ", " ++ to_rust_type val ++ ">"
  | .tSet elem => "BTreeSet<" ++ to_rust_type elem ++ ">"
  | .tList elem => "Vec<" ++ to_rust_type elem ++ ">"

/-! ### Constant emission -/

/-- Body of `can_generate_simple_const` after resolution: is the type a
base type whose base is not double (`is_base_type()` plus the double
check, t_rs_generator.cc:3030). -/
def base_type_non_double : TType → Bool
  | .base b => !(b == TBase.tDouble)
  | _ => false

/-- `t_rs_generator::can_generate_simple_const` (t_rs_generator.cc:3028):
true exactly when the resolved type is a base type other than double. -/
def can_generate_simple_const (t : TType) : Bool :=
  base_type_non_double (get_true_type t)

/-- `t_rs_generator::can_generate_const_holder` (t_rs_generator.cc:3038).
The C++ also excludes service types, which the type algebra of this
embedding does not contain (a constant of service type cannot be
declared). -/
def can_generate_const_holder (t : TType) : Bool :=
  !(can_generate_simple_const (get_true_type t))

/-- How `generate_const` emits one constant: an inline `pub const`
item, a value-holder struct with a zero-argument producer, or an abort
of the run. -/
inductive ConstEmission where
  | inline
  | holder
  | abort (msg : String)
deriving DecidableEq, Repr

/-- `t_rs_generator::generate_const` (t_rs_generator.cc:654): choose
between the inline and value-holder forms, aborting when neither
applies. -/
def generate_const (name : String) (t : TType) : ConstEmission :=
  if can_generate_simple_const t then ConstEmission.inline
  else if can_generate_const_holder t then ConstEmission.holder
  else ConstEmission.abort ("cannot generate const for " ++ name)

/-! ### Struct definition emission -/

/-- `render_struct_definition` (t_rs_generator.cc:1048): whether the
emitted struct derives `Default`.  Starts true only for the regular and
exception flavours and is cleared as soon as a non-optional member is
seen; translated as the same left fold over the members. -/
def need_default (structType : StructType) (members : List Field) : Bool :=
  members.foldl (fun acc m => acc && is_optional m.req)
    (structType == StructType.tRegular || structType == StructType.tException)

/-- Zero defaults used to pre-initialize `OptInReqOut` read slots (the
values named by `opt_in_req_out_value`). -/
inductive ZeroValue where
  | emptyString
  | emptyBytes
  | nilUuid
  | boolFalse
  | intZero
  | doubleZero
  | emptyList
  | emptySet
  | emptyMap
deriving DecidableEq, Repr

/-- Body of `opt_in_req_out_value` after the initial
`ttype = get_true_type(ttype)` resolution (t_rs_generator.cc:2988):
the dispatch over the resolved type.  `ok (some v)` renders as
`Some(v)`, `ok none` as `None`, and `error` is a generator abort.  The
final catch-all throw of the C++ covers the typedef case, which the
resolution makes unreachable. -/
def opt_in_req_out_value_resolved : TType → Except String (Option ZeroValue)
  | .base .tVoid => .error "cannot generate OPT_IN_REQ_OUT value for void"
  | .base (.tString true) => .ok (some ZeroValue.emptyBytes)
  | .base (.tString false) => .ok (some ZeroValue.emptyString)
  | .base .tUuid => .ok (some ZeroValue.nilUuid)
  | .base .tBool => .ok (some ZeroValue.boolFalse)
  | .base .tI8 => .ok (some ZeroValue.intZero)
  | .base .tI16 => .ok (some ZeroValue.intZero)
  | .base .tI32 => .ok (some ZeroValue.intZero)
  | .base .tI64 => .ok (some ZeroValue.intZero)
  | .base .tDouble => .ok (some ZeroValue.doubleZero)
  | .tEnum _ => .ok none
  | .tStruct _ => .ok none
  | .tXception _ => .ok none
  | .tList _ => .ok (some ZeroValue.emptyList)
  | .tSet _ => .ok (some ZeroValue.emptySet)
  | .tMap _ _ => .ok (some ZeroValue.emptyMap)
  | .tTypedef symbolic _ _ =>
      .error ("cannot generate opt-in-req-out value for type " ++ symbolic)

/-- `t_rs_generator::opt_in_req_out_value` (t_rs_generator.cc:2987):
the initial read-slot content for an `OptInReqOut` field. -/
def opt_in_req_out_value (t : TType) : Except String (Option ZeroValue) :=
  opt_in_req_out_value_resolved (get_true_type t)

/-- `render_struct_sync_read` (t_rs_generator.cc:1662): the initial
content of the local optional slot declared for one field — the
type-specific zero default when the effective requiredness is
`OptInReqOut`, `None` otherwise. -/
def struct_read_slot_init (structType : StructType) (f : Field) :
    Except String (Option ZeroValue) :=
  if actual_field_req f structType == Req.optInReqOut then
    opt_in_req_out_value f.ty
  else
    .ok none

/-! ### Errors of the emitted code -/

/-- Kinds of protocol errors the emitted code constructs. -/
inductive ProtocolErrorKind where
  | invalidData
deriving DecidableEq, Repr

/-- Kinds of application errors the emitted code constructs. -/
inductive ApplicationErrorKind where
  | missingResult
  | unknown
  | unknownMethod
deriving DecidableEq, Repr

/-- The runtime `thrift::Error` sum as emitted code builds it.  User
errors carry a boxed IDL exception value, abstracted as a numeric
token. -/
inductive ThriftError where
  | protocol (kind : ProtocolErrorKind) (message : String)
  | application (kind : ApplicationErrorKind) (message : String)
  | user (e : Nat)
deriving DecidableEq, Repr

/-! ### Union emission and union read -/

/-- `render_union_definition` (t_rs_generator.cc:1339) as the list of
emitted lines: a union with zero members aborts the run before any
output; otherwise the derive header, the `pub enum` header, one
variant per member and the closing brace are emitted. -/
def render_union_definition (union_name : String) (members : List Field) :
    Except String (List String) :=
  if members.isEmpty then
    .error "cannot generate rust enum with 0 members"
  else
    .ok (["#[derive(Clone, Debug, Eq, Hash, Ord, PartialEq, PartialOrd)]",
          "pub enum " ++ union_name ++ " \x7b"]
      ++ members.map (fun m =>
           "  " ++ rust_union_field_name m.name ++ "(" ++ to_rust_type m.ty ++ "),")
      ++ ["\x7d"])

/-- One field read off the wire before the stop marker: its field id
and its payload (payloads are abstracted as numeric tokens — the
type-directed `render_type_sync_read` is what produces them). -/
structure WireField where
  fid : Int
  payload : Nat
deriving DecidableEq, Repr

/-- A constructed union value: the (mangled) variant name holding the
payload that was read. -/
abbrev UnionVariant := String × Nat

/-- Whether the match arm emitted for member `m` — whose pattern is
`rust_safe_field_id(m.id)` (t_rs_generator.cc:1803) — matches the
received field id.  For `m.id ≥ 0` the pattern is a decimal literal and
matches exactly that id; for `m.id < 0` it is the identifier
`neg<abs>`, which in a Rust match is a *binding* pattern and matches
every field id. -/
def union_arm_matches (m : Field) (fid : Int) : Bool :=
  decide (m.id < 0) || m.id == fid

/-- One iteration of the field loop in the code emitted by
`render_union_sync_read` (t_rs_generator.cc:1783): the first arm whose
pattern matches the received field id (see `union_arm_matches` — a
negative-id member's arm matches everything) reads the payload, sets
`ret` only if `ret` is still `None` and increments the count; the
default arm skips the payload and also increments the count. -/
def union_read_step (members : List Field) (st : Option UnionVariant × Nat)
    (w : WireField) : Option UnionVariant × Nat :=
  match members.find? (fun m => union_arm_matches m w.fid) with
  | some m =>
      (match st.1 with
       | none => some (rust_union_field_name m.name, w.payload)
       | some r => some r,
       st.2 + 1)
  | none => (st.1, st.2 + 1)

/-- Behaviour of the `read_from_in_protocol` body emitted by
`render_union_sync_read` (t_rs_generator.cc:1768) on the happy protocol
path: fold the field loop over the wire fields (with the emitted arm
semantics, where a negative-id member's `neg<abs>` pattern binds every
field id), then return the value or the emitted error. -/
def render_union_sync_read_sem (union_name : String) (members : List Field)
    (wire : List WireField) : Except ThriftError UnionVariant :=
  let st := wire.foldl (union_read_step members) (none, 0)
  if st.2 = 0 then
    .error (.protocol .invalidData ("received empty union from remote " ++ union_name))
  else if st.2 > 1 then
    .error (.protocol .invalidData
      ("received multiple fields for union from remote " ++ union_name))
  else
    match st.1 with
    | some ret => .ok ret
    | none => .error (.protocol .invalidData "return value should have been constructed")

/-- The union-read loop exactly as the spec words it: maintain
`ret: Option<Variant>` and `count`; per known field id read the payload
and, if `ret` is still empty, set `ret` to that variant, incrementing
`count` regardless; unknown ids skip and also increment `count`. -/
def spec_union_read_loop (members : List Field) (ret : Option UnionVariant)
    (count : Nat) : List WireField → Option UnionVariant × Nat
  | [] => (ret, count)
  | w :: rest =>
      match members.find? (fun m => m.id == w.fid) with
      | some m =>
          spec_union_read_loop members
            (if ret.isNone then some (rust_union_field_name m.name, w.payload) else ret)
            (count + 1) rest
      | none => spec_union_read_loop members ret (count + 1) rest

/-- The union-read algorithm as the spec states it, with the messages
spelled out in full as in the spec testable properties: after the
loop, `count == 0` is the empty-union protocol error, `count > 1` the
multiple-fields protocol error, `ret == Some(v)` yields `Ok(v)`, and
otherwise the construction protocol error is returned. -/
def spec_union_read (union_name : String) (members : List Field)
    (wire : List WireField) : Except ThriftError UnionVariant :=
  let st := spec_union_read_loop members none 0 wire
  if st.2 = 0 then
    .error (.protocol .invalidData ("received empty union from remote " ++ union_name))
  else if st.2 > 1 then
    .error (.protocol .invalidData
      ("received multiple fields for union from remote " ++ union_name))
  else
    match st.1 with
    | some ret => .ok ret
    | none => .error (.protocol .invalidData "return value should have been constructed")

/-- Boolean equality of union-read outcomes (no `DecidableEq` instance
for `Except` ships with the toolchain). -/
def union_result_eqb :
    Except ThriftError UnionVariant → Except ThriftError UnionVariant → Bool
  | .ok a, .ok b => a == b
  | .error a, .error b => a == b
  | _, _ => false

/-! ### Result-struct `ok_or` -/

/-- A value of a service-call result struct.  `ret` is the synthetic
`result_value` member: `none` when the call returns void (the member is
not emitted at all, t_rs_generator.cc:2372), `some slot` otherwise.
`excs` are the declared exception members in sorted-field order; every
member of a result struct is optional, so each holds an `Option`.
Exception payloads are abstracted as numeric tokens. -/
structure ResultStructValue where
  ret : Option (Option Nat)
  excs : List (Option Nat)
deriving DecidableEq, Repr

/-- The emitted chain of `if .. is_some()` and `else if .. is_some()`
branches over the exception members: the first present one wins. -/
def first_present : List (Option Nat) → Option Nat
  | [] => none
  | some e :: _ => some e
  | none :: rest => first_present rest

/-- Behaviour of the `ok_or` method emitted by
`render_result_struct_to_result_method` (t_rs_generator.cc:1274): the
exception branches are rendered first, in sorted-field order, each
returning `Err(thrift::Error::User(..))`; only after all of them comes
the return-value branch — `Ok(())` when the call returns void,
`Ok(self.result_value.unwrap())` when the member is present, and the
missing-result application error otherwise.  `call_name` is the result
struct's name with the first occurrence of `Result` deleted. -/
def ok_or_sem (call_name : String) (r : ResultStructValue) :
    Except ThriftError (Option Nat) :=
  match first_present r.excs with
  | some e => .error (.user e)
  | none =>
      match r.ret with
      | none => .ok none
      | some (some v) => .ok (some v)
      | some none =>
          .error (.application .missingResult ("no result received for " ++ call_name))

/-- The `ok_or` behaviour exactly as the claim words it: the return
field wins if present; only if it is absent is the first present
exception field returned as a user error; `Ok(unit)` when no return is
declared and no exception field is present; otherwise the
missing-result application error. -/
def ok_or_claim (call_name : String) (r : ResultStructValue) :
    Except ThriftError (Option Nat) :=
  match r.ret with
  | some (some v) => .ok (some v)
  | _ =>
      match first_present r.excs with
      | some e => .error (.user e)
      | none =>
          match r.ret with
          | none => .ok none
          | some _ =>
              .error (.application .missingResult ("no result received for " ++ call_name))

/-- Boolean equality of `ok_or` outcomes (no `DecidableEq` instance
for `Except` ships with the toolchain). -/
def except_result_eqb :
    Except ThriftError (Option Nat) → Except ThriftError (Option Nat) → Bool
  | .ok a, .ok b => a == b
  | .error a, .error b => a == b
  | _, _ => false

/-- Delete the first occurrence of `search` from a character list,
returning `none` when it does not occur
(`std::string::find` + `replace` with the empty string). -/
def removeFirst (search : List Char) : List Char → Option (List Char)
  | [] => none
  | c :: cs =>
      if search ≠ [] ∧ search.isPrefixOf (c :: cs) then
        some ((c :: cs).drop search.length)
      else
        (removeFirst search cs).map (c :: ·)

/-- `render_result_struct_to_result_method` (t_rs_generator.cc:1249):
the service-call name used in the missing-result message — the result
struct's name with the first occurrence of the `Result` suffix deleted;
a result struct without it aborts the run. -/
def result_call_name (struct_name : String) : Except String String :=
  match removeFirst "Result".data struct_name.data with
  | none => .error ("result struct " ++ struct_name ++ " missing result suffix")
  | some chars => .ok (String.mk chars)

/-! ### Service dispatch -/

/-- A service: its name, the names of its declared functions in
declaration order, and optionally the service it extends
(`t_service::get_extends`). -/
inductive Service where
  | root (name : String) (functions : List String)
  | sub (name : String) (functions : List String) (parent : Service)
deriving DecidableEq, Repr

/-- The functions a service itself declares, in declaration order. -/
def Service.ownFunctions : Service → List String
  | .root _ fns => fns
  | .sub _ fns _ => fns

/-- The service together with its ancestors, the service itself first
and each parent after its child. -/
def Service.lineage : Service → List Service
  | .root n fns => [.root n fns]
  | .sub n fns p => .sub n fns p :: p.lineage

/-- `render_process_match_statements` (t_rs_generator.cc:2546): the
original IDL function names of the dispatch match arms, in emission
order — the service's own functions in declaration order, then
(recursively) those of the service it extends. -/
def render_process_match_statements : Service → List String
  | .root _ fns => fns
  | .sub _ fns parent => fns ++ render_process_match_statements parent

/-- The arm order as the claim words it: declaration order per service,
with the arms of parent services before those of their children. -/
def claim_match_arm_order : Service → List String
  | .root _ fns => fns
  | .sub _ fns parent => claim_match_arm_order parent ++ fns

/-! ### Enum conversions -/

/-- The emitted Rust enum type: a newtype over `i32`
(`render_enum_definition`, t_rs_generator.cc:882). -/
structure EnumValue where
  val : Int
deriving DecidableEq, Repr

/-- Behaviour of the emitted `impl From<i32>`
(`render_enum_conversion`, t_rs_generator.cc:951): a match with one arm
per declared constant in declaration order, each producing the
associated constant (the newtype over the constant's value), and a
fallback arm `_ => EnumName(i)` preserving the raw value.  A constant
is its (name, i32 value) pair. -/
def enum_from_i32 (constants : List (String × Int)) (i : Int) : EnumValue :=
  match constants.find? (fun c => c.2 == i) with
  | some c => EnumValue.mk c.2
  | none => EnumValue.mk i

/-- Behaviour of the emitted `impl From<EnumName> for i32`
(t_rs_generator.cc:986): project the newtype payload. -/
def enum_to_i32 (e : EnumValue) : Int :=
  e.val

/-- The zero defaults exactly as the spec tables them for resolved
types: empty string and bytes, nil UUID, false, 0, 0.0 and the empty
containers, with struct, enum and exception getting the absent value
(`none`); types the spec does not mention also map to `none`. -/
def zero_default_spec : TType → Option ZeroValue
  | .base (.tString true) => some ZeroValue.emptyBytes
  | .base (.tString false) => some ZeroValue.emptyString
  | .base .tUuid => some ZeroValue.nilUuid
  | .base .tBool => some ZeroValue.boolFalse
  | .base .tI8 => some ZeroValue.intZero
  | .base .tI16 => some ZeroValue.intZero
  | .base .tI32 => some ZeroValue.intZero
  | .base .tI64 => some ZeroValue.intZero
  | .base .tDouble => some ZeroValue.doubleZero
  | .tList _ => some ZeroValue.emptyList
  | .tSet _ => some ZeroValue.emptySet
  | .tMap _ _ => some ZeroValue.emptyMap
  | _ => none

/-!
## Theorems

Helper lemmas first, then one theorem per claim (with the witness or
counterexample each status calls for).
-/

/-- Resolving typedefs never stops at a typedef node. -/
theorem get_true_type_ne_typedef : ∀ (t : TType) (s : String) (fw : Bool) (i : TType),
    get_true_type t ≠ TType.tTypedef s fw i := by
  intro t
  induction t with
  | tTypedef s fw inner ih => intro a b c; simpa [get_true_type] using ih a b c
  | base b => intro _ _ _; simp [get_true_type]
  | tEnum n => intro _ _ _; simp [get_true_type]
  | tStruct n => intro _ _ _; simp [get_true_type]
  | tXception n => intro _ _ _; simp [get_true_type]
  | tList e ih => intro _ _ _; simp [get_true_type]
  | tSet e ih => intro _ _ _; simp [get_true_type]
  | tMap k v ihk ihv => intro _ _ _; simp [get_true_type]

/-- Folding conjunction over a list from an accumulator is the
accumulator conjoined with `all`. -/
theorem foldl_and_all (p : Field → Bool) : ∀ (l : List Field) (b : Bool),
    l.foldl (fun acc m => acc && p m) b = (b && l.all p) := by
  intro l
  induction l with
  | nil => intro b; simp
  | cons m rest ih => intro b; simp [List.all_cons, ih, Bool.and_assoc]

/-- C10: for every emitted enum and every i32 value, converting through
the generated `From<i32>` and back through the generated `From<Enum>`
for `i32` yields the original value — the fallback arm keeps the raw
value and every constant arm re-produces the value it matched. -/
theorem c10_enum_i32_roundtrip : ∀ (constants : List (String × Int)) (i : Int),
    enum_to_i32 (enum_from_i32 constants i) = i := by
  intro constants i
  unfold enum_from_i32 enum_to_i32
  cases hfind : constants.find? (fun c => c.2 == i) with
  | none => rfl
  | some c =>
      have hc := List.find?_some hfind
      simp only [beq_iff_eq] at hc
      simpa using hc

/-- C6 counterexample: for `B extends A`, the emitted dispatch arms put
the child service's functions before the parent's, while the claim
orders parents first. -/
theorem c6_counterexample :
    render_process_match_statements (.sub "B" ["bf"] (.root "A" ["af"])) = ["bf", "af"] ∧
    claim_match_arm_order (.sub "B" ["bf"] (.root "A" ["af"])) = ["af", "bf"] ∧
    (render_process_match_statements (.sub "B" ["bf"] (.root "A" ["af"])) ==
      claim_match_arm_order (.sub "B" ["bf"] (.root "A" ["af"]))) = false := by
  refine ⟨rfl, rfl, by decide⟩

/-- C6 (amended): the dispatch match arms are the flattening of the
service lineage — every function of the service and of all transitive
ancestors appears, in declaration order per service, with each
service's arms before those of the service it extends (children before
parents). -/
theorem c6_match_arms_flatten_lineage : ∀ s : Service,
    render_process_match_statements s =
      (s.lineage.map Service.ownFunctions).flatten := by
  intro s
  induction s with
  | root n fns => simp [render_process_match_statements, Service.lineage, Service.ownFunctions]
  | sub n fns p ih =>
      simp [render_process_match_statements, Service.lineage, Service.ownFunctions, ih]

/-- C4 counterexample: a result-flavor struct all of whose (effective)
fields are optional still does not get the `Default` derivation —
`need_default` is false for the result flavor outright. -/
theorem c4_counterexample :
    (([⟨0, "result_value", .base .tI32, .optional⟩] : List Field).all
        (fun m => is_optional (actual_field_req m .tResult)) = true) ∧
    need_default .tResult [⟨0, "result_value", .base .tI32, .optional⟩] = false := by
  decide

/-- C4 (amended): the `Default` derivation is emitted iff the flavor is
regular or exception and every declared field is optional or
opt-in-req-out; args- and result-flavor structs never derive it. -/
theorem c4_default_derivation : ∀ (st : StructType) (members : List Field),
    need_default st members =
      ((st == StructType.tRegular || st == StructType.tException) &&
        members.all (fun m => is_optional m.req)) ∧
    need_default StructType.tResult members = false ∧
    need_default StructType.tArgs members = false := by
  intro st members
  refine ⟨foldl_and_all _ members _, ?_, ?_⟩
  · rw [need_default, foldl_and_all]; rfl
  · rw [need_default, foldl_and_all]; rfl

/-- C3 counterexample: a string-typed constant is emitted in the inline
form, not as a value-holder, contradicting the claim that strings get
the holder form. -/
theorem c3_counterexample :
    generate_const "QQ" (.base (.tString false)) = ConstEmission.inline ∧
    (ConstEmission.inline == ConstEmission.holder) = false := by
  decide

/-- Typedef resolution is idempotent. -/
theorem get_true_type_idem : ∀ t : TType,
    get_true_type (get_true_type t) = get_true_type t := by
  intro t
  induction t with
  | tTypedef s fw inner ih => simpa [get_true_type] using ih
  | base b => simp [get_true_type]
  | tEnum n => simp [get_true_type]
  | tStruct n => simp [get_true_type]
  | tXception n => simp [get_true_type]
  | tList e ih => simp [get_true_type]
  | tSet e ih => simp [get_true_type]
  | tMap k v ihk ihv => simp [get_true_type]

/-- Characterization of `can_generate_simple_const`: a resolved base
type other than double. -/
theorem simple_const_iff : ∀ t : TType,
    can_generate_simple_const t = true ↔
      ∃ b, get_true_type t = TType.base b ∧ b ≠ TBase.tDouble := by
  intro t
  unfold can_generate_simple_const
  rcases h : get_true_type t with b | n | n | n | e | e | ⟨k, v⟩ | ⟨s, fw, i⟩ <;>
    simp [base_type_non_double]

/-- `can_generate_simple_const` is stable under typedef resolution. -/
theorem simple_const_resolved : ∀ t : TType,
    can_generate_simple_const (get_true_type t) = can_generate_simple_const t := by
  intro t
  unfold can_generate_simple_const
  rw [get_true_type_idem]

/-- `generate_const` never reaches its abort branch on this type
algebra: it is inline when simple and holder otherwise. -/
theorem generate_const_reduce : ∀ (name : String) (t : TType),
    generate_const name t =
      (if can_generate_simple_const t then ConstEmission.inline
       else ConstEmission.holder) := by
  intro name t
  unfold generate_const can_generate_const_holder
  rw [simple_const_resolved]
  cases hs : can_generate_simple_const t <;> simp [hs]

/-- C3 (amended): the inline form is chosen exactly when the resolved
type is a base type other than double — so strings, binaries and UUIDs
are inlined too — and the value-holder form is chosen for everything
else (doubles, enums, structs, exceptions, unions and containers); the
emitter never aborts on the types of this algebra. -/
theorem c3_const_emission_shape : ∀ (name : String) (t : TType),
    (generate_const name t = ConstEmission.inline ↔
      ∃ b, get_true_type t = TType.base b ∧ b ≠ TBase.tDouble) ∧
    (generate_const name t = ConstEmission.holder ↔
      ∀ b, get_true_type t = TType.base b → b = TBase.tDouble) ∧
    (generate_const name t = ConstEmission.inline ∨
      generate_const name t = ConstEmission.holder) := by
  intro name t
  rw [generate_const_reduce]
  cases hs : can_generate_simple_const t with
  | true =>
      obtain ⟨b, hb, hbd⟩ := (simple_const_iff t).mp hs
      refine ⟨iff_of_true (by simp) ⟨b, hb, hbd⟩, iff_of_false (by simp) ?_, by simp⟩
      intro hf
      exact hbd (hf b hb)
  | false =>
      have hne : ¬∃ b, get_true_type t = TType.base b ∧ b ≠ TBase.tDouble := by
        intro hex
        have := (simple_const_iff t).mpr hex
        rw [hs] at this
        exact Bool.false_ne_true this
      refine ⟨iff_of_false (by simp) hne, iff_of_true (by simp) ?_, by simp⟩
      intro b hb
      by_contra hbd
      exact hne ⟨b, hb, hbd⟩

/-- C7: a union declaration with zero fields aborts emission with the
descriptive generator-internal error before producing any output;
every union with at least one field produces output. -/
theorem c7_zero_field_union_rejected :
    (∀ name, render_union_definition name [] =
        .error "cannot generate rust enum with 0 members") ∧
    (∀ name (members : List Field), members ≠ [] →
        ∃ lines, render_union_definition name members = .ok lines) := by
  constructor
  · intro name; rfl
  · intro name members h
    unfold render_union_definition
    rw [if_neg (by simpa using h)]
    exact ⟨_, rfl⟩

/-- C7 witness: the rejection and the non-empty success at concrete
unions. -/
theorem c7_zero_field_union_rejected_witness :
    render_union_definition "U" [] = .error "cannot generate rust enum with 0 members" ∧
    ∃ lines, render_union_definition "U" [⟨1, "a", .base .tI32, .optional⟩] = .ok lines :=
  ⟨c7_zero_field_union_rejected.1 "U",
   c7_zero_field_union_rejected.2 "U" [⟨1, "a", .base .tI32, .optional⟩] (by simp)⟩

/-- C5: an `OptInReqOut` read slot is initialized to the type-specific
zero default, present for base types and containers, absent for enums,
structs and exceptions; every other field's slot starts as `None`. -/
theorem c5_read_slot_initialization : ∀ (st : StructType) (f : Field),
    (actual_field_req f st = Req.optInReqOut →
        get_true_type f.ty ≠ TType.base TBase.tVoid →
        struct_read_slot_init st f = .ok (zero_default_spec (get_true_type f.ty))) ∧
    (actual_field_req f st ≠ Req.optInReqOut →
        struct_read_slot_init st f = .ok none) := by
  intro st f
  constructor
  · intro hreq hvoid
    unfold struct_read_slot_init
    rw [hreq]
    rw [if_pos (show (Req.optInReqOut == Req.optInReqOut) = true by decide)]
    unfold opt_in_req_out_value
    rcases h : get_true_type f.ty with b | n | n | n | e | e | ⟨k, v⟩ | ⟨s, fw, i⟩
    · cases b with
      | tVoid => exact absurd h hvoid
      | tString bin =>
          cases bin <;> simp [opt_in_req_out_value_resolved, zero_default_spec]
      | tBool => simp [opt_in_req_out_value_resolved, zero_default_spec]
      | tUuid => simp [opt_in_req_out_value_resolved, zero_default_spec]
      | tI8 => simp [opt_in_req_out_value_resolved, zero_default_spec]
      | tI16 => simp [opt_in_req_out_value_resolved, zero_default_spec]
      | tI32 => simp [opt_in_req_out_value_resolved, zero_default_spec]
      | tI64 => simp [opt_in_req_out_value_resolved, zero_default_spec]
      | tDouble => simp [opt_in_req_out_value_resolved, zero_default_spec]
    · simp [opt_in_req_out_value_resolved, zero_default_spec]
    · simp [opt_in_req_out_value_resolved, zero_default_spec]
    · simp [opt_in_req_out_value_resolved, zero_default_spec]
    · simp [opt_in_req_out_value_resolved, zero_default_spec]
    · simp [opt_in_req_out_value_resolved, zero_default_spec]
    · simp [opt_in_req_out_value_resolved, zero_default_spec]
    · exact absurd h (get_true_type_ne_typedef f.ty s fw i)
  · intro hreq
    unfold struct_read_slot_init
    rw [if_neg]
    simpa using hreq

/-- C5 witness: concrete instantiations — an opt-in-req-out i32 field
starts at `Some(0)`, an opt-in-req-out struct field starts at `None`,
and a required field's slot starts at `None`. -/
theorem c5_read_slot_initialization_witness :
    struct_read_slot_init .tRegular ⟨1, "x", .base .tI32, .optInReqOut⟩ =
      .ok (zero_default_spec (get_true_type (.base .tI32))) ∧
    struct_read_slot_init .tRegular ⟨2, "s", .tStruct "S", .optInReqOut⟩ =
      .ok (zero_default_spec (get_true_type (.tStruct "S"))) ∧
    struct_read_slot_init .tRegular ⟨3, "y", .base .tI32, .required⟩ = .ok none :=
  ⟨(c5_read_slot_initialization .tRegular ⟨1, "x", .base .tI32, .optInReqOut⟩).1
      (by decide) (by decide),
   (c5_read_slot_initialization .tRegular ⟨2, "s", .tStruct "S", .optInReqOut⟩).1
      (by decide) (by decide),
   (c5_read_slot_initialization .tRegular ⟨3, "y", .base .tI32, .required⟩).2
      (by decide)⟩

/-- C2 counterexample: a result-struct value carrying both a present
return field and a present exception field — the emitted `ok_or`
checks the exception branches first and returns the user error, while
the claim requires the present return field to win. -/
theorem c2_counterexample :
    ok_or_sem "CalcAdd" ⟨some (some 7), [some 3]⟩ =
      .error (ThriftError.user 3) ∧
    ok_or_claim "CalcAdd" ⟨some (some 7), [some 3]⟩ = .ok (some 7) ∧
    except_result_eqb (ok_or_sem "CalcAdd" ⟨some (some 7), [some 3]⟩)
      (ok_or_claim "CalcAdd" ⟨some (some 7), [some 3]⟩) = false := by
  refine ⟨rfl, rfl, by decide⟩

/-- C2 (amended): `ok_or` returns the first present exception field as
a user error, checking all exception fields before the return field;
only when no exception field is present does it return the return
field if present, `Ok(unit)` when no return is declared, and otherwise
the missing-result application error whose message carries the
service-call name. -/
theorem c2_ok_or_behaviour : ∀ (cn : String) (r : ResultStructValue),
    (∀ e, first_present r.excs = some e →
        ok_or_sem cn r = .error (ThriftError.user e)) ∧
    (first_present r.excs = none → ∀ v, r.ret = some (some v) →
        ok_or_sem cn r = .ok (some v)) ∧
    (first_present r.excs = none → r.ret = none → ok_or_sem cn r = .ok none) ∧
    (first_present r.excs = none → r.ret = some none →
        ok_or_sem cn r =
          .error (.application .missingResult ("no result received for " ++ cn))) := by
  intro cn r
  refine ⟨?_, ?_, ?_, ?_⟩
  · intro e he
    unfold ok_or_sem
    rw [he]
  · intro hn v hv
    unfold ok_or_sem
    rw [hn, hv]
  · intro hn hv
    unfold ok_or_sem
    rw [hn, hv]
  · intro hn hv
    unfold ok_or_sem
    rw [hn, hv]

/-- C2 witness: the four behaviours at concrete result-struct values,
including the call-name-carrying missing-result message. -/
theorem c2_ok_or_behaviour_witness :
    ok_or_sem "CalcAdd" ⟨some (some 7), [none, some 3]⟩ =
      .error (ThriftError.user 3) ∧
    ok_or_sem "CalcAdd" ⟨some (some 7), [none, none]⟩ = .ok (some 7) ∧
    ok_or_sem "CalcPing" ⟨none, []⟩ = .ok none ∧
    ok_or_sem "CalcAdd" ⟨some none, [none]⟩ =
      .error (.application .missingResult "no result received for CalcAdd") :=
  ⟨(c2_ok_or_behaviour "CalcAdd" ⟨some (some 7), [none, some 3]⟩).1 3 rfl,
   (c2_ok_or_behaviour "CalcAdd" ⟨some (some 7), [none, none]⟩).2.1 rfl 7 rfl,
   (c2_ok_or_behaviour "CalcPing" ⟨none, []⟩).2.2.1 rfl rfl,
   (c2_ok_or_behaviour "CalcAdd" ⟨some none, [none]⟩).2.2.2 rfl rfl⟩

/-- When every member id is nonnegative, every emitted arm pattern is
a decimal literal, so arm dispatch is exact field-id lookup. -/
theorem union_find_eq (fid : Int) : ∀ (members : List Field),
    (∀ m ∈ members, 0 ≤ m.id) →
    members.find? (fun m => union_arm_matches m fid) =
      members.find? (fun m => m.id == fid) := by
  intro members
  induction members with
  | nil => intro h; rfl
  | cons m ms ih =>
      intro h
      have hm : 0 ≤ m.id := h m (List.mem_cons_self m ms)
      have harm : union_arm_matches m fid = (m.id == fid) := by
        unfold union_arm_matches
        rw [decide_eq_false (by omega), Bool.false_or]
      cases he : (m.id == fid) with
      | true =>
          rw [List.find?_cons_of_pos ms (by rw [harm]; exact he),
              List.find?_cons_of_pos ms he]
      | false =>
          rw [List.find?_cons_of_neg ms (by simp [harm, he]),
              List.find?_cons_of_neg ms (by simp [he])]
          exact ih (fun x hx => h x (List.mem_cons_of_mem m hx))

/-- Under nonnegative member ids, the field loop of the emitted union
read is the loop the spec describes, for any starting `ret` and
`count`. -/
theorem union_loop_eq (members : List Field) (hpos : ∀ m ∈ members, 0 ≤ m.id) :
    ∀ (wire : List WireField) (ret : Option UnionVariant) (count : Nat),
    wire.foldl (union_read_step members) (ret, count) =
      spec_union_read_loop members ret count wire := by
  intro wire
  induction wire with
  | nil => intro ret count; rfl
  | cons w rest ih =>
      intro ret count
      rw [List.foldl_cons]
      have hstep : union_read_step members (ret, count) w =
          (match members.find? (fun m => m.id == w.fid) with
           | some m =>
               ((if ret.isNone then some (rust_union_field_name m.name, w.payload)
                 else ret), count + 1)
           | none => (ret, count + 1)) := by
        unfold union_read_step
        rw [union_find_eq w.fid members hpos]
        cases hf : members.find? (fun m => m.id == w.fid) with
        | some m => cases ret <;> rfl
        | none => rfl
      rw [hstep]
      unfold spec_union_read_loop
      cases hf : members.find? (fun m => m.id == w.fid) with
      | some m => exact ih _ _
      | none => exact ih _ _

/-- The emitted field loop increments the count once per wire field —
every arm, the binding arms of negative-id members and the default arm
included, executes `received_field_count += 1`. -/
theorem union_fold_count (members : List Field) : ∀ (wire : List WireField)
    (st : Option UnionVariant × Nat),
    (wire.foldl (union_read_step members) st).2 = st.2 + wire.length := by
  intro wire
  induction wire with
  | nil => intro st; simp
  | cons w rest ih =>
      intro st
      rw [List.foldl_cons, ih]
      have hstep2 : (union_read_step members st w).2 = st.2 + 1 := by
        unfold union_read_step
        cases hf : members.find? (fun m => union_arm_matches m w.fid) with
        | some m => rfl
        | none => rfl
      rw [hstep2]
      simp only [List.length_cons]
      omega

/-- C1 counterexample: a union whose single member has field id `-1`.
Its emitted match arm's pattern is the identifier `neg1`, a binding
pattern matching every field id, so the wire field with the unknown id
`7` is not skipped: the emitted read returns that member's variant,
while the spec algorithm skips the unknown field and ends in the
construction protocol error. -/
theorem c1_counterexample :
    spec_union_read "U" [⟨-1, "a", .base .tI32, .optional⟩] [⟨7, 9⟩] =
      .error (.protocol .invalidData "return value should have been constructed") ∧
    render_union_sync_read_sem "U" [⟨-1, "a", .base .tI32, .optional⟩] [⟨7, 9⟩] =
      .ok (rust_union_field_name "a", 9) ∧
    union_result_eqb
      (render_union_sync_read_sem "U" [⟨-1, "a", .base .tI32, .optional⟩] [⟨7, 9⟩])
      (spec_union_read "U" [⟨-1, "a", .base .tI32, .optional⟩] [⟨7, 9⟩]) = false := by
  refine ⟨rfl, rfl, rfl⟩

/-- C1 (amended): for every union all of whose member field ids are
nonnegative, the emitted union read is exactly the spec union-read
algorithm — per known field the payload is read and only an empty
`ret` is set, the count always increments, unknown fields are skipped
and counted, and the post-loop triage yields the empty-union error,
the multiple-fields error, `Ok`, or the construction error.  A
negative-id member's arm pattern is the binding identifier `neg<abs>`,
which matches every field id, so such unions misroute wire fields (see
the counterexample).  Unconditionally — the count increments in every
arm — an empty wire union fails with the empty-union protocol error
and any two-or-more-field wire union fails with the multiple-fields
protocol error. -/
theorem c1_union_read_nonnegative_ids :
    (∀ (name : String) (members : List Field) (wire : List WireField),
        (∀ m ∈ members, 0 ≤ m.id) →
        render_union_sync_read_sem name members wire = spec_union_read name members wire) ∧
    (∀ (name : String) (members : List Field),
        render_union_sync_read_sem name members [] =
          .error (.protocol .invalidData ("received empty union from remote " ++ name))) ∧
    (∀ (name : String) (members : List Field) (w1 w2 : WireField)
        (rest : List WireField),
        render_union_sync_read_sem name members (w1 :: w2 :: rest) =
          .error (.protocol .invalidData
            ("received multiple fields for union from remote " ++ name))) := by
  refine ⟨?_, ?_, ?_⟩
  · intro name members wire hpos
    unfold render_union_sync_read_sem spec_union_read
    rw [union_loop_eq members hpos]
  · intro name members
    rfl
  · intro name members w1 w2 rest
    unfold render_union_sync_read_sem
    rw [if_neg (by rw [union_fold_count]; simp only [List.length_cons]; omega),
        if_pos (by rw [union_fold_count]; simp only [List.length_cons]; omega)]

/-- C1 witness: the spec agreement applied to a concrete union with a
nonnegative member id, the hypothesis discharged by computation. -/
theorem c1_union_read_nonnegative_ids_witness :
    render_union_sync_read_sem "U" [⟨1, "a", .base .tI32, .optional⟩] [⟨1, 4⟩] =
      spec_union_read "U" [⟨1, "a", .base .tI32, .optional⟩] [⟨1, 4⟩] :=
  c1_union_read_nonnegative_ids.1 "U" [⟨1, "a", .base .tI32, .optional⟩] [⟨1, 4⟩]
    (by decide)

/-- `underscoreTail` leaves an underscore run followed by a lowercase
letter unchanged. -/
theorem underscoreTail_run : ∀ n : Nat,
    underscoreTail (List.replicate n '_' ++ ['b']) = List.replicate n '_' ++ ['b'] := by
  intro n
  induction n with
  | zero => rfl
  | succ k ih => simp [List.replicate_succ, underscoreTail, ih]

/-- The single collapse pass of `string_replace` on a pure underscore
run followed by a letter: non-overlapping pairs collapse left to
right, leaving `(m + 1) / 2` underscores. -/
theorem replace_pass_run : ∀ m : Nat,
    string_replace_chars ['_', '_'] ['_'] (List.replicate m '_' ++ ['b']) =
      List.replicate ((m + 1) / 2) '_' ++ ['b'] := by
  intro m
  induction m using Nat.strong_induction_on with
  | _ m ih =>
    match m with
    | 0 => simp [string_replace_chars, List.replicate, List.isPrefixOf]
    | 1 => simp [string_replace_chars, List.replicate, List.isPrefixOf]
    | k + 2 =>
        have hrw : List.replicate (k + 2) '_' ++ ['b'] =
            '_' :: '_' :: (List.replicate k '_' ++ ['b']) := by
          simp [List.replicate_succ]
        have hpre : (['_', '_'] : List Char) ≠ [] ∧
            (['_', '_'].isPrefixOf ('_' :: '_' :: (List.replicate k '_' ++ ['b']))) = true := by
          refine ⟨by simp, ?_⟩
          simp [List.isPrefixOf]
        rw [hrw]
        simp only [string_replace_chars]
        rw [dif_pos hpre]
        show '_' :: string_replace_chars ['_', '_'] ['_'] (List.replicate k '_' ++ ['b']) =
          List.replicate ((k + 2 + 1) / 2) '_' ++ ['b']
        rw [ih k (by omega)]
        rw [show (k + 2 + 1) / 2 = (k + 1) / 2 + 1 by omega, List.replicate_succ]
        rfl

/-- `rust_snake_case` on a run of `n` underscores between lowercase
letters: one left-to-right pass halves the run, leaving `(n + 1) / 2`
underscores. -/
theorem snake_case_run : ∀ n : Nat,
    rust_snake_case (underscore_run n) = underscore_run ((n + 1) / 2) := by
  intro n
  show String.mk (string_replace_chars ['_', '_'] ['_']
      (decapitalizeChars (underscoreChars ('a' :: (List.replicate n '_' ++ ['b']))))) =
    underscore_run ((n + 1) / 2)
  rw [show underscoreChars ('a' :: (List.replicate n '_' ++ ['b'])) =
        'a' :: (List.replicate n '_' ++ ['b']) from by
      simp [underscoreChars, underscoreTail_run n, show 'a'.toLower = 'a' from by decide]]
  rw [show decapitalizeChars ('a' :: (List.replicate n '_' ++ ['b'])) =
        'a' :: (List.replicate n '_' ++ ['b']) from by
      simp [decapitalizeChars, show 'a'.toLower = 'a' from by decide]]
  simp only [string_replace_chars]
  rw [dif_neg (by intro hc; simpa [List.isPrefixOf] using hc.2)]
  rw [replace_pass_run n]
  rfl

/-- C9 counterexample: the input `a___b` (a run of three underscores)
snake-cases to `a__b`, whose character data still contains two
consecutive underscores — the collapse pass does not rescan the
replacement, so runs of three or more underscores survive partially. -/
theorem c9_counterexample :
    underscore_run 3 = "a___b" ∧
    rust_snake_case (underscore_run 3) = underscore_run 2 ∧
    has_double_underscore (underscore_run 2).data = true := by
  refine ⟨by decide, ?_, by decide⟩
  exact snake_case_run 3

/-- C9 (amended): the snake-casing operation collapses underscore
pairs in a single non-overlapping left-to-right pass — a run of `n`
underscores becomes `(n + 1) / 2` underscores, so an isolated pair
collapses to one underscore but runs of three or more still leave
consecutive underscores in the output. -/
theorem c9_snake_case_single_pass :
    (∀ n : Nat, rust_snake_case (underscore_run n) = underscore_run ((n + 1) / 2)) ∧
    rust_snake_case (underscore_run 2) = underscore_run 1 := by
  exact ⟨snake_case_run, snake_case_run 2⟩

/-- `Nat.digitChar` on a single digit: `digitVal` inverts it and the
produced character is a decimal digit. -/
theorem digitChar_facts : ∀ d : Nat, d < 10 →
    digitVal (Nat.digitChar d) = d ∧ (Nat.digitChar d).isDigit = true := by
  intro d hd
  interval_cases d <;> exact ⟨by decide, by decide⟩

/-- Folding the little-endian digits of `decDigitsAux` recovers the
number, given enough fuel. -/
theorem decDigitsAux_foldr : ∀ (fuel n : Nat), n ≤ fuel →
    List.foldr (fun c acc => acc * 10 + digitVal c) 0 (decDigitsAux fuel n) = n := by
  intro fuel
  induction fuel with
  | zero =>
      intro n hn
      have hz : n = 0 := by omega
      subst hz
      rfl
  | succ k ih =>
      intro n hn
      cases n with
      | zero => rfl
      | succ j =>
          simp only [decDigitsAux, List.foldr_cons]
          rw [ih ((j + 1) / 10) (by omega)]
          rw [(digitChar_facts ((j + 1) % 10) (by omega)).1]
          omega

/-- Decoding the decimal rendering recovers the number. -/
theorem decode_decRepr : ∀ n : Nat, decodeDigits (decRepr n).data = n := by
  intro n
  by_cases h : n = 0
  · subst h
    rfl
  · unfold decRepr
    rw [if_neg h]
    show decodeDigits (decDigitsAux n n).reverse = n
    unfold decodeDigits
    rw [List.foldl_reverse]
    exact decDigitsAux_foldr n n le_rfl

/-- The decimal rendering is injective. -/
theorem decRepr_inj : ∀ a b : Nat, decRepr a = decRepr b → a = b := by
  intro a b h
  have h2 := congrArg (fun s => decodeDigits s.data) h
  simpa [decode_decRepr] using h2

/-- Every character `decDigitsAux` emits is a decimal digit. -/
theorem decDigitsAux_digits : ∀ (fuel n : Nat) (c : Char),
    c ∈ decDigitsAux fuel n → c.isDigit = true := by
  intro fuel
  induction fuel with
  | zero => intro n c hc; simp [decDigitsAux] at hc
  | succ k ih =>
      intro n c hc
      cases n with
      | zero => simp [decDigitsAux] at hc
      | succ j =>
          simp only [decDigitsAux, List.mem_cons] at hc
          rcases hc with hc | hc
          · rw [hc]
            exact (digitChar_facts ((j + 1) % 10) (by omega)).2
          · exact ih _ _ hc

/-- Every character of the decimal rendering is a decimal digit. -/
theorem decRepr_digits : ∀ (n : Nat) (c : Char),
    c ∈ (decRepr n).data → c.isDigit = true := by
  intro n c hc
  unfold decRepr at hc
  by_cases h : n = 0
  · rw [if_pos h] at hc
    have hc2 : c ∈ ['0'] := hc
    simp at hc2
    rw [hc2]
    decide
  · rw [if_neg h] at hc
    have hc2 : c ∈ (decDigitsAux n n).reverse := hc
    rw [List.mem_reverse] at hc2
    exact decDigitsAux_digits n n c hc2

/-- The decimal rendering is never empty. -/
theorem decRepr_ne_nil : ∀ n : Nat, (decRepr n).data ≠ [] := by
  intro n
  unfold decRepr
  by_cases h : n = 0
  · rw [if_pos h]
    decide
  · obtain ⟨j, rfl⟩ : ∃ j, n = j + 1 := ⟨n - 1, by omega⟩
    rw [if_neg h]
    show (decDigitsAux (j + 1) (j + 1)).reverse ≠ []
    simp [decDigitsAux]

/-- The decimal rendering starts with a digit character. -/
theorem decRepr_head : ∀ n : Nat,
    ∃ c cs, (decRepr n).data = c :: cs ∧ c.isDigit = true := by
  intro n
  cases hd : (decRepr n).data with
  | nil => exact absurd hd (decRepr_ne_nil n)
  | cons c cs =>
      refine ⟨c, cs, rfl, ?_⟩
      exact decRepr_digits n c (by rw [hd]; exact List.mem_cons_self c cs)

/-- The mangled id of a nonnegative field id is its decimal digits. -/
theorem rsfi_nonneg : ∀ id : Int, 0 ≤ id →
    rust_safe_field_id id = decRepr id.natAbs := by
  intro id h
  have hne : id ≠ INT32_MIN := by
    intro e
    rw [e] at h
    exact absurd h (by decide)
  have h2 : ¬((id.natAbs : Int) < 0) := by omega
  simp only [rust_safe_field_id, cpp_to_string, i32_abs, if_neg hne, if_pos h, if_neg h2,
    Int.natAbs_ofNat]

/-- The mangled id of a negative field id other than `INT32_MIN` is
`neg` followed by the decimal digits of the absolute value. -/
theorem rsfi_neg : ∀ id : Int, id < 0 → id ≠ INT32_MIN →
    rust_safe_field_id id = "neg" ++ decRepr id.natAbs := by
  intro id h hne
  have h0 : ¬(0 ≤ id) := by omega
  have h2 : ¬((id.natAbs : Int) < 0) := by omega
  simp only [rust_safe_field_id, cpp_to_string, i32_abs, if_neg hne, if_neg h0, if_neg h2,
    Int.natAbs_ofNat]

/-- Every negative id maps to a string starting with `neg`. -/
theorem rsfi_neg_shape : ∀ id : Int, ¬(0 ≤ id) →
    ∃ s, rust_safe_field_id id = "neg" ++ s := by
  intro id h
  exact ⟨cpp_to_string (i32_abs id), by simp only [rust_safe_field_id, if_neg h]⟩

/-- The mangled id of `INT32_MIN`, under the two's-complement
behaviour of the overflowing `abs`. -/
theorem rsfi_min_eq : rust_safe_field_id INT32_MIN = "neg-2147483648" := by
  decide

/-- A nonnegative id and a negative id never collide: one output
starts with a digit, the other with the letter `n`. -/
theorem rsfi_nonneg_ne_neg : ∀ x y : Int, 0 ≤ x → ¬(0 ≤ y) →
    rust_safe_field_id x ≠ rust_safe_field_id y := by
  intro x y hx hy heq
  obtain ⟨s, hs⟩ := rsfi_neg_shape y hy
  rw [rsfi_nonneg x hx, hs] at heq
  obtain ⟨c, cs, hdata, hdig⟩ := decRepr_head x.natAbs
  have hd := congrArg String.data heq
  rw [String.data_append, hdata] at hd
  rw [show ("neg" : String).data = ['n', 'e', 'g'] from rfl] at hd
  have hcn : c = 'n' := by
    have h3 := congrArg List.head? hd
    simpa using h3
  rw [hcn] at hdig
  exact absurd hdig (by decide)

/-- `INT32_MIN` collides with no other negative id: its overflowed
digits start with a minus sign, a well-formed rendering with a digit. -/
theorem rsfi_min_ne_neg : ∀ y : Int, y < 0 → y ≠ INT32_MIN →
    rust_safe_field_id INT32_MIN ≠ rust_safe_field_id y := by
  intro y hy hne heq
  rw [rsfi_min_eq, rsfi_neg y hy hne] at heq
  obtain ⟨c, cs, hdata, hdig⟩ := decRepr_head y.natAbs
  have hd := congrArg String.data heq
  rw [String.data_append, hdata] at hd
  rw [show ("neg-2147483648" : String).data =
        ['n', 'e', 'g', '-', '2', '1', '4', '7', '4', '8', '3', '6', '4', '8'] from rfl,
      show ("neg" : String).data = ['n', 'e', 'g'] from rfl] at hd
  simp only [List.cons_append, List.nil_append, List.cons.injEq] at hd
  obtain ⟨-, -, -, hc, -⟩ := hd
  rw [← hc] at hdig
  exact absurd hdig (by decide)

/-- C8 counterexample: at `INT32_MIN` the C `abs` overflows; under the
two's-complement behaviour modelled by `i32_abs` the emitted fragment
is `neg-2147483648`, which contains a minus sign and is not a valid
identifier tail. -/
theorem c8_counterexample :
    rust_safe_field_id (-(2 ^ 31)) = "neg-2147483648" ∧
    valid_ident_tail "neg-2147483648" = false := by
  constructor
  · exact rsfi_min_eq
  · decide

/-- C8 (amended): over the int32 range the mangling is injective —
distinct ids, including zero and negative ones, map to distinct
strings — and for every id other than `INT32_MIN` the output is as
claimed (decimal digits for nonnegative ids, `neg` plus the decimal
absolute value for negative ones) and a valid identifier tail; at
`INT32_MIN` the overflowing `abs` breaks the valid-tail property. -/
theorem c8_safe_field_id :
    (∀ a b : Int, -(2 ^ 31) ≤ a → a < 2 ^ 31 → -(2 ^ 31) ≤ b → b < 2 ^ 31 →
        rust_safe_field_id a = rust_safe_field_id b → a = b) ∧
    (∀ id : Int, 0 ≤ id → rust_safe_field_id id = decRepr id.natAbs) ∧
    (∀ id : Int, id < 0 → id ≠ INT32_MIN →
        rust_safe_field_id id = "neg" ++ decRepr id.natAbs) ∧
    (∀ id : Int, INT32_MIN < id → valid_ident_tail (rust_safe_field_id id) = true) := by
  refine ⟨?_, rsfi_nonneg, rsfi_neg, ?_⟩
  · intro a b ha1 ha2 hb1 hb2 heq
    by_cases h0a : 0 ≤ a <;> by_cases h0b : 0 ≤ b
    · rw [rsfi_nonneg a h0a, rsfi_nonneg b h0b] at heq
      have h3 := decRepr_inj _ _ heq
      omega
    · exact absurd heq (rsfi_nonneg_ne_neg a b h0a h0b)
    · exact absurd heq.symm (rsfi_nonneg_ne_neg b a h0b h0a)
    · by_cases hma : a = INT32_MIN <;> by_cases hmb : b = INT32_MIN
      · rw [hma, hmb]
      · subst hma
        exact absurd heq (rsfi_min_ne_neg b (by omega) hmb)
      · subst hmb
        exact absurd heq.symm (rsfi_min_ne_neg a (by omega) hma)
      · rw [rsfi_neg a (by omega) hma, rsfi_neg b (by omega) hmb] at heq
        have hd := congrArg String.data heq
        rw [String.data_append, String.data_append] at hd
        have hd2 := List.append_cancel_left hd
        have h3 := congrArg decodeDigits hd2
        have ha := decode_decRepr a.natAbs
        have hb := decode_decRepr b.natAbs
        rw [ha, hb] at h3
        omega
  · intro id hmin
    by_cases h0 : 0 ≤ id
    · rw [rsfi_nonneg id h0]
      unfold valid_ident_tail
      rw [List.all_eq_true]
      intro c hc
      have h3 := decRepr_digits id.natAbs c hc
      simp [h3]
    · have hne : id ≠ INT32_MIN := by
        intro e
        rw [e] at hmin
        exact lt_irrefl _ hmin
      rw [rsfi_neg id (by omega) hne]
      unfold valid_ident_tail
      rw [List.all_eq_true]
      intro c hc
      rw [String.data_append, List.mem_append] at hc
      rcases hc with hc | hc
      · rw [show ("neg" : String).data = ['n', 'e', 'g'] from rfl] at hc
        simp at hc
        rcases hc with rfl | rfl | rfl <;> decide
      · have h3 := decRepr_digits id.natAbs c hc
        simp [h3]

/-- C8 witness: concrete instantiations of the injectivity and the
shape and valid-tail statements. -/
theorem c8_safe_field_id_witness :
    (42 : Int) = 42 ∧
    rust_safe_field_id 42 = decRepr (42 : Int).natAbs ∧
    rust_safe_field_id (-7) = "neg" ++ decRepr ((-7 : Int)).natAbs ∧
    valid_ident_tail (rust_safe_field_id (-7)) = true :=
  ⟨c8_safe_field_id.1 42 42 (by decide) (by decide) (by decide) (by decide) rfl,
   c8_safe_field_id.2.1 42 (by decide),
   c8_safe_field_id.2.2.1 (-7) (by decide) (by decide),
   c8_safe_field_id.2.2.2 (-7) (by decide)⟩

end RsGen
